import Mathlib

/-
Verification of the measurement core of the runqy-benchmarks repository.

Shallow embedding conventions:
* Python floats (perf_counter readings, latencies, durations) are modelled as
  exact rationals (ℚ); float literals such as 0.95 are modelled by their
  decimal value 95/100.
* The nondeterministic environment (what each HTTP/Redis/workflow call does,
  in which order futures complete, what the wall clock reads) is passed in as
  explicit parameters; the aggregation logic is then a deterministic function
  of those parameters.
* A Python expression that can raise is modelled with `Option`
  (`none` = the exception escapes) wherever a claim depends on the fault;
  list subscripts are modelled by `pyGet`, which also implements Python's
  negative-index convention.
-/

namespace RunqyBench

/-- Python `int(x)` applied to a float: truncation toward zero. -/
def pyTrunc (q : ℚ) : ℤ := if 0 ≤ q then ⌊q⌋ else ⌈q⌉

/-- Python `round(x, d)`: rounding half to even at `d` decimal places
(the decimal idealisation of CPython's float `round`). -/
def pyRound (x : ℚ) (d : ℕ) : ℚ :=
  let y := x * (10 : ℚ) ^ d
  let f : ℤ := ⌊y⌋
  let r := y - (f : ℚ)
  let k : ℤ :=
    if r < 1 / 2 then f
    else if 1 / 2 < r then f + 1
    else if f % 2 = 0 then f else f + 1
  (k : ℚ) / (10 : ℚ) ^ d

/-- Python list subscript `l[i]` with `i : ℤ`: negative indices count from the
end; `none` models an `IndexError`. -/
def pyGet (l : List ℚ) (i : ℤ) : Option ℚ :=
  if 0 ≤ i then l.get? i.toNat
  else if i.natAbs ≤ l.length then l.get? (l.length - i.natAbs)
  else none

/-- Embedding of `benchmark_common.calculate_percentile`:

    if not latencies: return 0.0
    sorted_latencies = sorted(latencies)
    index = int(len(sorted_latencies) * percentile / 100)
    return sorted_latencies[min(index, len(sorted_latencies) - 1)]

Python's `sorted` builds an ascending-sorted copy, embedded as
`List.insertionSort (· ≤ ·)`.  For every percentile the repository passes
(50, 95, 99) the clamped index is inside the list, so the `Option.getD _ 0`
default branch — which would correspond to an `IndexError`, reachable in
Python only for a percentile below -100/len — is never taken. -/
def calculate_percentile (latencies : List ℚ) (percentile : ℚ) : ℚ :=
  if latencies = [] then 0
  else
    let sorted_latencies := latencies.insertionSort (· ≤ ·)
    let index := pyTrunc ((sorted_latencies.length : ℚ) * percentile / 100)
    (pyGet sorted_latencies (min index ((sorted_latencies.length : ℤ) - 1))).getD 0

/-- Embedding of `benchmark_common.BenchmarkResult`.  The Python field
`timestamp` holds `datetime.utcnow().isoformat() + "Z"`; it is modelled by the
rational clock reading `now` that `calculate_metrics` receives as an explicit
parameter (ISO formatting is injective on distinct instants). -/
structure BenchmarkResult where
  system : String
  scenario : String
  jobs_count : ℕ
  duration_seconds : ℚ
  throughput_per_second : ℚ
  latency_p50_ms : ℚ
  latency_p95_ms : ℚ
  latency_p99_ms : ℚ
  latency_avg_ms : ℚ
  latency_min_ms : ℚ
  latency_max_ms : ℚ
  errors : ℕ
  timestamp : ℚ
deriving DecidableEq

/-- Embedding of `benchmark_common.calculate_metrics`.  `statistics.mean` is
sum divided by length; `min`/`max` of a nonempty list are `List.min?` /
`List.max?`, whose `none` case coincides with the `if latencies_ms else 0`
guards of the source.  The ambient wall-clock read for the timestamp field is
the explicit final parameter `now`. -/
def calculate_metrics (system scenario : String) (jobs_count : ℕ)
    (start_time end_time : ℚ) (latencies : List ℚ) (errors : ℕ) (now : ℚ) :
    BenchmarkResult :=
  let duration := end_time - start_time
  let throughput := if duration > 0 then (jobs_count : ℚ) / duration else 0
  let latencies_ms := latencies.map (fun l => l * 1000)
  { system := system
    scenario := scenario
    jobs_count := jobs_count
    duration_seconds := pyRound duration 3
    throughput_per_second := pyRound throughput 2
    latency_p50_ms := pyRound (calculate_percentile latencies_ms 50) 3
    latency_p95_ms := pyRound (calculate_percentile latencies_ms 95) 3
    latency_p99_ms := pyRound (calculate_percentile latencies_ms 99) 3
    latency_avg_ms :=
      if latencies_ms = [] then 0
      else pyRound (latencies_ms.sum / (latencies_ms.length : ℚ)) 3
    latency_min_ms :=
      match latencies_ms.min? with
      | some m => pyRound m 3
      | none => 0
    latency_max_ms :=
      match latencies_ms.max? with
      | some m => pyRound m 3
      | none => 0
    errors := errors
    timestamp := now }

lemma pyRound_zero (d : ℕ) : pyRound 0 d = 0 := by
  simp [pyRound]

/-- Key arithmetic fact: Python's `int(len * p / 100)` coincides with natural
floor division for natural `len` and `p`. -/
lemma pyTrunc_nat_mul_div (n pn : ℕ) :
    pyTrunc ((n : ℚ) * (pn : ℚ) / 100) = ((n * pn / 100 : ℕ) : ℤ) := by
  have h0 : (0 : ℚ) ≤ (n : ℚ) * (pn : ℚ) / 100 := by positivity
  rw [pyTrunc, if_pos h0]
  have hcast : ((n : ℚ) * (pn : ℚ) / 100) = ((n * pn : ℕ) : ℚ) / ((100 : ℕ) : ℚ) := by
    push_cast; ring
  rw [hcast]
  have hnn : (0 : ℚ) ≤ ((n * pn : ℕ) : ℚ) / ((100 : ℕ) : ℚ) := by positivity
  have hfl : ⌊((n * pn : ℕ) : ℚ) / ((100 : ℕ) : ℚ)⌋₊ = n * pn / 100 := by
    rw [Nat.floor_div_nat, Nat.floor_natCast]
  have htn := Int.floor_toNat (((n * pn : ℕ) : ℚ) / ((100 : ℕ) : ℚ))
  have hge : 0 ≤ ⌊((n * pn : ℕ) : ℚ) / ((100 : ℕ) : ℚ)⌋ := Int.floor_nonneg.mpr hnn
  omega

lemma pyGet_natCast (l : List ℚ) (k : ℕ) (h : k < l.length) :
    pyGet l (k : ℤ) = some (l.getD k 0) := by
  rw [pyGet, if_pos (by exact_mod_cast Nat.zero_le k)]
  rw [Int.toNat_natCast, List.getD_eq_getElem l 0 h, List.get?_eq_getElem?,
    List.getElem?_eq_getElem h]

/-- What one HTTP POST attempt inside `benchmark_runqy.submit_job` can do:
the request either returns a response with some status code, or raises
(timeout, connection error, ...).  `elapsed` is the monotonic-clock time from
`start = time.perf_counter()` to the `end` read of the respective branch. -/
inductive HttpAttempt where
  | response (elapsed : ℚ) (status : ℕ)
  | raised (elapsed : ℚ) (msg : String)

/-- Embedding of `benchmark_runqy.submit_job`: status 200 yields
`(end - start, None)`, any other status `(end - start, f"HTTP {code}")`, and a
raised exception is caught and turned into `(end - start, str(e))`.  Totality
of this function is the embedding of "never propagates an exception". -/
def submit_job : HttpAttempt → ℚ × Option String
  | .response elapsed status =>
      if status = 200 then (elapsed, none)
      else (elapsed, some ("HTTP " ++ toString status))
  | .raised elapsed msg => (elapsed, some msg)

/-- The list of outcomes `benchmark_runqy` submits to its thread pool:
`[executor.submit(submit_job, i, scenario) for i in range(jobs_count)]`,
with the behaviour of attempt `i` supplied by the environment `env`. -/
def submittedOutcomes (env : ℕ → HttpAttempt) (jobs_count : ℕ) :
    List (ℚ × Option String) :=
  (List.range jobs_count).map (fun i => submit_job (env i))

/-- The `for future in as_completed(futures)` loop shared by
`benchmark_runqy`, `benchmark_celery` and `benchmark_runqy_direct`:
in completion order, append the latency and count the errors.

    latency, error = future.result()
    latencies.append(latency)
    if error: errors += 1 -/
def collectOutcomes : List (ℚ × Option String) → List ℚ × ℕ
  | [] => ([], 0)
  | (latency, fault) :: rest =>
      let c := collectOutcomes rest
      (latency :: c.1, (if fault.isSome then 1 else 0) + c.2)

/-- Embedding of `benchmark_runqy.benchmark_runqy`: collect the outcomes in
completion order `completed` (an arbitrary permutation of the submitted
attempts — a hypothesis of the theorems below) and aggregate with
`calculate_metrics`. -/
def benchmark_runqy (scenario : String) (jobs_count : ℕ)
    (completed : List (ℚ × Option String))
    (start_time end_time now : ℚ) : BenchmarkResult :=
  let c := collectOutcomes completed
  calculate_metrics "Runqy" scenario jobs_count start_time end_time c.1 c.2 now

/-- What one `client.start_workflow` call inside
`benchmark_temporal.submit_workflow` can do. -/
inductive WorkflowAttempt where
  | ok (elapsed : ℚ)
  | raised (elapsed : ℚ) (msg : String)

/-- Embedding of `benchmark_temporal.submit_workflow`: on success it returns
the elapsed time in milliseconds and `True`; on an exception it returns
`(0.0, False)` — the measured elapsed time of a failed attempt is discarded. -/
def submit_workflow : WorkflowAttempt → ℚ × Bool
  | .ok elapsed => (elapsed * 1000, true)
  | .raised _ _ => (0, false)

/-- The collection loop of `benchmark_temporal.run_benchmark`:

    for latency, success in results:
        if success: latencies.append(latency)
        else: errors += 1

Only successful submissions contribute a latency. -/
def temporalCollect : List (ℚ × Bool) → List ℚ × ℕ
  | [] => ([], 0)
  | (latency, success) :: rest =>
      let c := temporalCollect rest
      if success then (latency :: c.1, c.2) else (c.1, c.2 + 1)

/-- Embedding of `benchmark_temporal.BenchmarkResult` (a distinct dataclass
from the common one); all numeric fields default to 0. -/
structure TemporalResult where
  system : String
  job_count : ℕ
  total_time_seconds : ℚ
  throughput_per_second : ℚ
  latency_p50_ms : ℚ
  latency_p95_ms : ℚ
  latency_p99_ms : ℚ
  errors : ℕ
deriving DecidableEq

/-- Embedding of `benchmark_temporal.run_benchmark` (statistics part; the
warmup submissions touch neither `latencies` nor `errors` and are omitted).
`asyncio.gather` returns results in task order, so `results` is the in-order
map of `submit_workflow` over the job indices.  In the nonempty branch the
source sorts in place (`latencies.sort()`) and indexes with
`int(len*0.50)`, `int(len*0.95)` and `min(int(len*0.99), len-1)`; the float
literals are modelled by their decimal values.  In the empty branch the
dataclass defaults (everything 0 except `errors`) are returned. -/
def run_benchmark (env : ℕ → WorkflowAttempt) (job_count : ℕ)
    (total_time : ℚ) : TemporalResult :=
  let results := (List.range job_count).map (fun i => submit_workflow (env i))
  let c := temporalCollect results
  if c.1 = [] then
    { system := "temporal", job_count := job_count, total_time_seconds := 0,
      throughput_per_second := 0, latency_p50_ms := 0, latency_p95_ms := 0,
      latency_p99_ms := 0, errors := c.2 }
  else
    let ls := c.1.insertionSort (· ≤ ·)
    let n := ls.length
    { system := "temporal"
      job_count := job_count
      total_time_seconds := total_time
      throughput_per_second := (job_count : ℚ) / total_time
      latency_p50_ms := (pyGet ls (pyTrunc ((n : ℚ) * (50 / 100)))).getD 0
      latency_p95_ms := (pyGet ls (pyTrunc ((n : ℚ) * (95 / 100)))).getD 0
      latency_p99_ms :=
        (pyGet ls (min (pyTrunc ((n : ℚ) * (99 / 100))) ((n : ℤ) - 1))).getD 0
      errors := c.2 }

/-- What one attempt inside `benchmark_runqy_direct.submit_task_direct` can
do: the msgpack serialisation plus pipelined Redis commands either all succeed
or raise. -/
inductive RedisAttempt where
  | ok (elapsed : ℚ)
  | raised (elapsed : ℚ) (msg : String)

/-- Embedding of `benchmark_runqy_direct.submit_task_direct`: success yields
`(end - start, None)`, an exception is caught and yields
`(end - start, str(e))`. -/
def submit_task_direct : RedisAttempt → ℚ × Option String
  | .ok elapsed => (elapsed, none)
  | .raised elapsed msg => (elapsed, some msg)

/-- Embedding of `benchmark_runqy_direct.BenchmarkResult`. -/
structure DirectResult where
  system : String
  job_count : ℕ
  total_time_seconds : ℚ
  throughput_per_second : ℚ
  latency_p50_ms : ℚ
  latency_p95_ms : ℚ
  latency_p99_ms : ℚ
  errors : ℕ
deriving DecidableEq

/-- Embedding of the aggregation part of
`benchmark_runqy_direct.benchmark_runqy_direct` (lines 144-164): the collected
latencies are sorted in place, converted to milliseconds, and indexed with

    p50_idx = int(len * 0.50)
    p95_idx = int(len * 0.95)
    p99_idx = min(int(len * 0.99), len - 1)

with no emptiness guard; `none` models the `IndexError` that the subscripts
raise on an empty latency list (for `jobs_count = 0`, `p50_idx` is `0` and
`p99_idx` is `-1`, both invalid for `[]`). -/
def benchmark_runqy_direct (jobs_count : ℕ)
    (completed : List (ℚ × Option String)) (total_time : ℚ) :
    Option DirectResult :=
  let c := collectOutcomes completed
  let latencies := c.1.insertionSort (· ≤ ·)
  let latencies_ms := latencies.map (fun l => l * 1000)
  let n := latencies_ms.length
  let p50_idx := pyTrunc ((n : ℚ) * (50 / 100))
  let p95_idx := pyTrunc ((n : ℚ) * (95 / 100))
  let p99_idx := min (pyTrunc ((n : ℚ) * (99 / 100))) ((n : ℤ) - 1)
  match pyGet latencies_ms p50_idx, pyGet latencies_ms p95_idx,
      pyGet latencies_ms p99_idx with
  | some p50, some p95, some p99 =>
      some { system := "runqy", job_count := jobs_count,
             total_time_seconds := total_time,
             throughput_per_second := (jobs_count : ℚ) / total_time,
             latency_p50_ms := p50, latency_p95_ms := p95,
             latency_p99_ms := p99, errors := c.2 }
  | _, _, _ => none

/-- Number of jobs in batch `i` of `benchmark_runqy_pipelined`:
`batch_end - batch_start` with `batch_start = i * batch_size` and
`batch_end = min(batch_start + batch_size, jobs_count)`. -/
def jobsInBatch (jobs_count batch_size i : ℕ) : ℕ :=
  min (i * batch_size + batch_size) jobs_count - i * batch_size

/-- The per-job latency attribution loop of
`benchmark_runqy_pipelined.benchmark_pipelined` (lines 141-150):

    for i, batch_lat in enumerate(batch_latencies):
        ...
        per_job = batch_lat / jobs_in_batch
        per_job_latencies.extend([per_job] * jobs_in_batch)

`i` is the running `enumerate` index. -/
def attributeBatches (jobs_count batch_size : ℕ) :
    List ℚ → ℕ → List ℚ
  | [], _ => []
  | batch_lat :: rest, i =>
      let k := jobsInBatch jobs_count batch_size i
      List.replicate k (batch_lat / (k : ℚ)) ++
        attributeBatches jobs_count batch_size rest (i + 1)

/-- Embedding of `benchmark_runqy_pipelined.BenchmarkResult`. -/
structure PipelinedResult where
  system : String
  job_count : ℕ
  total_time_seconds : ℚ
  throughput_per_second : ℚ
  latency_p50_ms : ℚ
  latency_p95_ms : ℚ
  latency_p99_ms : ℚ
  errors : ℕ
  optimization : String
deriving DecidableEq

/-- Embedding of the aggregation part of
`benchmark_runqy_pipelined.benchmark_pipelined`: `batch_latencies` holds the
measured elapsed time of each executed pipeline batch (appended whether or not
`pipe.execute()` raised), `errors` the accumulated error count.  The
attributed per-job latencies are sorted and indexed exactly as in the direct
script. -/
def benchmark_pipelined (jobs_count batch_size : ℕ)
    (batch_latencies : List ℚ) (total_time : ℚ) (errors : ℕ) :
    Option PipelinedResult :=
  let per_job_latencies :=
    (attributeBatches jobs_count batch_size batch_latencies 0).insertionSort (· ≤ ·)
  let n := per_job_latencies.length
  let p50_idx := pyTrunc ((n : ℚ) * (50 / 100))
  let p95_idx := pyTrunc ((n : ℚ) * (95 / 100))
  let p99_idx := min (pyTrunc ((n : ℚ) * (99 / 100))) ((n : ℤ) - 1)
  match pyGet per_job_latencies p50_idx, pyGet per_job_latencies p95_idx,
      pyGet per_job_latencies p99_idx with
  | some p50, some p95, some p99 =>
      some { system := "runqy", job_count := jobs_count,
             total_time_seconds := total_time,
             throughput_per_second := (jobs_count : ℚ) / total_time,
             latency_p50_ms := p50, latency_p95_ms := p95,
             latency_p99_ms := p99, errors := errors,
             optimization := "pipelined" }
  | _, _, _ => none

/-- State-passing embedding of `calculate_percentile`, for the frame claim:
the state is the caller's `latencies` list; `get` is a read of that list.
Python's `sorted(latencies)` allocates a fresh sorted copy (an in-place
`latencies.sort()` would instead be a `modify`); no statement of the source
writes the caller's list. -/
def calculate_percentileSt (percentile : ℚ) : StateM (List ℚ) ℚ := do
  let latencies ← get
  if latencies = [] then
    return 0
  else
    let sorted_latencies := latencies.insertionSort (· ≤ ·)
    let index := pyTrunc ((sorted_latencies.length : ℚ) * percentile / 100)
    return (pyGet sorted_latencies
      (min index ((sorted_latencies.length : ℤ) - 1))).getD 0

/-- State-passing embedding of `calculate_metrics`, for the frame claim: the
state is the caller's `latencies` list.  The comprehension
`[l * 1000 for l in latencies]` builds a new list `latencies_ms`; the three
`calculate_percentile` calls receive that fresh list (not the caller's), so
they are the pure function applied to it. -/
def calculate_metricsSt (system scenario : String) (jobs_count : ℕ)
    (start_time end_time : ℚ) (errors : ℕ) (now : ℚ) :
    StateM (List ℚ) BenchmarkResult := do
  let latencies ← get
  let duration := end_time - start_time
  let throughput := if duration > 0 then (jobs_count : ℚ) / duration else 0
  let latencies_ms := latencies.map (fun l => l * 1000)
  return { system := system
           scenario := scenario
           jobs_count := jobs_count
           duration_seconds := pyRound duration 3
           throughput_per_second := pyRound throughput 2
           latency_p50_ms := pyRound (calculate_percentile latencies_ms 50) 3
           latency_p95_ms := pyRound (calculate_percentile latencies_ms 95) 3
           latency_p99_ms := pyRound (calculate_percentile latencies_ms 99) 3
           latency_avg_ms :=
             if latencies_ms = [] then 0
             else pyRound (latencies_ms.sum / (latencies_ms.length : ℚ)) 3
           latency_min_ms :=
             match latencies_ms.min? with
             | some m => pyRound m 3
             | none => 0
           latency_max_ms :=
             match latencies_ms.max? with
             | some m => pyRound m 3
             | none => 0
           errors := errors
           timestamp := now }

/-- The result record with the wall-clock timestamp field scrubbed; used to
compare the deterministic statistic fields of two invocations. -/
def eraseTimestamp (r : BenchmarkResult) : BenchmarkResult :=
  { r with timestamp := 0 }

lemma collectOutcomes_fst (xs : List (ℚ × Option String)) :
    (collectOutcomes xs).1 = xs.map Prod.fst := by
  induction xs with
  | nil => rfl
  | cons x rest ih =>
      obtain ⟨latency, fault⟩ := x
      simp [collectOutcomes, ih]

lemma collectOutcomes_snd (xs : List (ℚ × Option String)) :
    (collectOutcomes xs).2 = (xs.filter (fun o => o.2.isSome)).length := by
  induction xs with
  | nil => rfl
  | cons x rest ih =>
      obtain ⟨latency, fault⟩ := x
      cases fault with
      | none => simp [collectOutcomes, ih, List.filter]
      | some msg =>
          simp [collectOutcomes, ih, List.filter]
          omega

lemma filter_isNone_isSome_length (xs : List (ℚ × Option String)) :
    (xs.filter (fun o => o.2.isNone)).length +
      (xs.filter (fun o => o.2.isSome)).length = xs.length := by
  induction xs with
  | nil => rfl
  | cons x rest ih =>
      obtain ⟨latency, fault⟩ := x
      cases fault <;> simp [List.filter] <;> omega

lemma temporalCollect_length (rs : List (ℚ × Bool)) :
    (temporalCollect rs).1.length + (temporalCollect rs).2 = rs.length := by
  induction rs with
  | nil => rfl
  | cons r rest ih =>
      obtain ⟨latency, success⟩ := r
      cases success <;> simp [temporalCollect] <;> omega

lemma temporalCollect_fst (rs : List (ℚ × Bool)) :
    (temporalCollect rs).1 = (rs.filter (fun r => r.2)).map Prod.fst := by
  induction rs with
  | nil => rfl
  | cons r rest ih =>
      obtain ⟨latency, success⟩ := r
      cases success <;> simp [temporalCollect, ih, List.filter]

/-- For a nonempty list and a natural percentile, `calculate_percentile` is
the ascending sort indexed at `min (n * p / 100) (n - 1)`. -/
lemma calculate_percentile_nonempty (L : List ℚ) (pn : ℕ) (hL : L ≠ []) :
    calculate_percentile L (pn : ℚ) =
      (L.insertionSort (· ≤ ·)).getD (min (L.length * pn / 100) (L.length - 1)) 0 := by
  have hlen : (L.insertionSort (· ≤ ·)).length = L.length :=
    List.length_insertionSort _ L
  have hpos : 1 ≤ L.length := List.length_pos.mpr hL
  simp only [calculate_percentile, if_neg hL, hlen]
  rw [pyTrunc_nat_mul_div]
  have hco : ((L.length : ℤ) - 1) = ((L.length - 1 : ℕ) : ℤ) := by omega
  rw [hco, ← Nat.cast_min]
  have hidx : min (L.length * pn / 100) (L.length - 1) <
      (L.insertionSort (· ≤ ·)).length := by
    rw [hlen]; omega
  rw [pyGet_natCast _ _ hidx, Option.getD_some]

/-- C1: for a nonempty latency list `L` and percentile `p ∈ {50, 95, 99}`,
`calculate_percentile` returns the element of the ascending-sorted copy of `L`
at index `⌊len(L) * p / 100⌋` clamped to at most `len(L) - 1` (nearest-rank
indexing), and returns 0 when `L` is empty.  The sorted copy is characterised
abstractly: any sorted permutation `s` of `L`. -/
theorem percentile_nearest_rank :
    (∀ p : ℚ, calculate_percentile [] p = 0) ∧
    ∀ (L s : List ℚ) (pn : ℕ), L ≠ [] → (pn = 50 ∨ pn = 95 ∨ pn = 99) →
      L.Perm s → s.Sorted (· ≤ ·) →
      calculate_percentile L (pn : ℚ) =
        s.getD (min (L.length * pn / 100) (L.length - 1)) 0 := by
  constructor
  · intro p; simp [calculate_percentile]
  · intro L s pn hL hp hperm hsorted
    have hs : s = L.insertionSort (· ≤ ·) :=
      List.eq_of_perm_of_sorted
        (hperm.symm.trans (L.perm_insertionSort (· ≤ ·)).symm) hsorted
        (List.sorted_insertionSort _ L)
    rw [hs, calculate_percentile_nonempty L pn hL]

/-- Witness for `percentile_nearest_rank` at `L = [3, 1, 2]`, `p = 95`. -/
theorem percentile_nearest_rank_witness :
    ([3, 1, 2] : List ℚ) ≠ [] ∧ ((95 : ℕ) = 50 ∨ (95 : ℕ) = 95 ∨ (95 : ℕ) = 99) ∧
    ([3, 1, 2] : List ℚ).Perm [1, 2, 3] ∧
    List.Sorted (· ≤ ·) ([1, 2, 3] : List ℚ) ∧
    calculate_percentile [3, 1, 2] ((95 : ℕ) : ℚ) =
      ([1, 2, 3] : List ℚ).getD (min (3 * 95 / 100) (3 - 1)) 0 :=
  ⟨by simp, by norm_num, by decide, by decide,
   percentile_nearest_rank.2 [3, 1, 2] [1, 2, 3] 95 (by simp) (by norm_num)
     (by decide) (by decide)⟩

/-- C2: over a run of `N` jobs, the collection loop records exactly one
latency per submitted job, and the successful outcomes plus the counted errors
add up to `N` — for the thread-pool script under an arbitrary completion
order, and for the temporal script where successes are exactly the collected
latencies. -/
theorem run_outcome_accounting :
    (∀ (N : ℕ) (env : ℕ → HttpAttempt) (completed : List (ℚ × Option String)),
        completed.Perm (submittedOutcomes env N) →
        (collectOutcomes completed).1.length = N ∧
        (completed.filter (fun o => o.2.isNone)).length +
          (collectOutcomes completed).2 = N) ∧
    (∀ (N : ℕ) (env : ℕ → WorkflowAttempt),
        (temporalCollect ((List.range N).map
            (fun i => submit_workflow (env i)))).1.length +
          (temporalCollect ((List.range N).map
            (fun i => submit_workflow (env i)))).2 = N) := by
  constructor
  · intro N env completed hperm
    have hlen : completed.length = N := by
      have h := hperm.length_eq
      simpa [submittedOutcomes] using h
    refine ⟨?_, ?_⟩
    · rw [collectOutcomes_fst, List.length_map, hlen]
    · rw [collectOutcomes_snd]
      have h2 := filter_isNone_isSome_length completed
      omega
  · intro N env
    rw [temporalCollect_length, List.length_map, List.length_range]

/-- Witness for `run_outcome_accounting` with two jobs (one success, one
raised exception) collected in reversed completion order. -/
theorem run_outcome_accounting_witness :
    ([((3 : ℚ), some "boom"), ((1 : ℚ), none)] : List (ℚ × Option String)).Perm
      (submittedOutcomes
        (fun i => if i = 0 then HttpAttempt.response 1 200
                  else HttpAttempt.raised 3 "boom") 2) ∧
    (collectOutcomes [((3 : ℚ), some "boom"), ((1 : ℚ), none)]).1.length = 2 ∧
    (([((3 : ℚ), some "boom"), ((1 : ℚ), none)] :
        List (ℚ × Option String)).filter (fun o => o.2.isNone)).length +
      (collectOutcomes [((3 : ℚ), some "boom"), ((1 : ℚ), none)]).2 = 2 :=
  ⟨by decide,
   (run_outcome_accounting.1 2
      (fun i => if i = 0 then HttpAttempt.response 1 200
                else HttpAttempt.raised 3 "boom")
      [((3 : ℚ), some "boom"), ((1 : ℚ), none)] (by decide)).1,
   (run_outcome_accounting.1 2
      (fun i => if i = 0 then HttpAttempt.response 1 200
                else HttpAttempt.raised 3 "boom")
      [((3 : ℚ), some "boom"), ((1 : ℚ), none)] (by decide)).2⟩

/-- C3 counterexample: in `benchmark_temporal`, a failed submission does not
contribute its elapsed time to the latency list.  With two jobs — job 0
succeeding after 1s and job 1 raising after 5s — the collected latency list of
`run_benchmark` is `[1000]`; neither `5 * 1000` (the failed attempt's elapsed
time in ms) nor any trace of it is in the percentile population, refuting the
claim "a submission that returns an error outcome still contributes its
elapsed time to the p50/p95/p99 distribution" for every run. -/
theorem latency_population_cex :
    ¬ ((5 : ℚ) * 1000 ∈
        (temporalCollect ((List.range 2).map (fun i =>
          submit_workflow (if i = 0 then WorkflowAttempt.ok 1
            else WorkflowAttempt.raised 5 "boom")))).1) := by
  intro h
  norm_num [List.range_succ, submit_workflow, temporalCollect] at h

/-- C3 amended: in the thread-pool scripts (`benchmark_runqy`,
`benchmark_celery`, `benchmark_runqy_direct`) the latency list fed to the
percentile computation contains the measured latency of every attempted
submission including the failed ones (it is a permutation of all `N`
attempts' elapsed times); in `benchmark_temporal` the latency list consists
exactly of the latencies of the successful submissions — failed attempts are
excluded from the distribution and contribute only to the error count. -/
theorem latency_population :
    (∀ (N : ℕ) (env : ℕ → HttpAttempt) (completed : List (ℚ × Option String)),
        completed.Perm (submittedOutcomes env N) →
        (collectOutcomes completed).1.Perm
          ((List.range N).map (fun i => (submit_job (env i)).1))) ∧
    (∀ rs : List (ℚ × Bool),
        (temporalCollect rs).1 = (rs.filter (fun r => r.2)).map Prod.fst) := by
  constructor
  · intro N env completed hperm
    rw [collectOutcomes_fst]
    have h := hperm.map Prod.fst
    simpa [submittedOutcomes, List.map_map, Function.comp] using h
  · exact temporalCollect_fst

/-- Witness for `latency_population` with one failing submission whose
elapsed time still appears in the latency population. -/
theorem latency_population_witness :
    ([((2 : ℚ), some "boom")] : List (ℚ × Option String)).Perm
      (submittedOutcomes (fun _ => HttpAttempt.raised 2 "boom") 1) ∧
    (collectOutcomes [((2 : ℚ), some "boom")]).1.Perm
      ((List.range 1).map
        (fun i => (submit_job ((fun _ => HttpAttempt.raised 2 "boom") i)).1)) :=
  ⟨by decide,
   latency_population.1 1 (fun _ => HttpAttempt.raised 2 "boom")
     [((2 : ℚ), some "boom")] (by decide)⟩

/-- C4: every submission attempt yields a `SubmissionOutcome` — the submitter
is a total function of the attempt's behaviour, classifying a 200 response as
success and any other status or raised exception as a failure with a
human-readable cause — and the collection loop processes every outcome, so a
failing submission never aborts the remaining ones. -/
theorem submitter_always_returns_outcome :
    (∀ (elapsed : ℚ) (status : ℕ),
        submit_job (.response elapsed status) =
          (elapsed,
            if status = 200 then none
            else some ("HTTP " ++ toString status))) ∧
    (∀ (elapsed : ℚ) (msg : String),
        submit_job (.raised elapsed msg) = (elapsed, some msg)) ∧
    (∀ a : HttpAttempt,
        (submit_job a).2 = none ↔ ∃ e, a = .response e 200) ∧
    (∀ elapsed : ℚ, submit_task_direct (.ok elapsed) = (elapsed, none)) ∧
    (∀ (elapsed : ℚ) (msg : String),
        submit_task_direct (.raised elapsed msg) = (elapsed, some msg)) ∧
    (∀ completed : List (ℚ × Option String),
        (collectOutcomes completed).1.length = completed.length) := by
  refine ⟨?_, ?_, ?_, ?_, ?_, ?_⟩
  · intro e s
    by_cases h : s = 200 <;> simp [submit_job, h]
  · intro e m; rfl
  · intro a
    cases a with
    | response e s => by_cases h : s = 200 <;> simp [submit_job, h]
    | raised e m => simp [submit_job]
  · intro e; rfl
  · intro e m; rfl
  · intro completed
    rw [collectOutcomes_fst, List.length_map]

/-- C5: evaluation at the failing input.  On an empty latency collection
(`job_count = 0`), the shared aggregator `calculate_metrics` defines every
derived statistic — p50, p95, p99, mean, min, max, throughput — as 0 with
error count 0 and no fault; but the inline aggregation of
`benchmark_runqy_direct` subscripts the empty latency list
(`latencies_ms[p50_idx]` with `p50_idx = 0`, `p99_idx = -1`) and raises
`IndexError`, producing no result at all. -/
theorem empty_run_statistics :
    (∀ (sys scen : String) (s e now : ℚ),
        (calculate_metrics sys scen 0 s e [] 0 now).latency_p50_ms = 0 ∧
        (calculate_metrics sys scen 0 s e [] 0 now).latency_p95_ms = 0 ∧
        (calculate_metrics sys scen 0 s e [] 0 now).latency_p99_ms = 0 ∧
        (calculate_metrics sys scen 0 s e [] 0 now).latency_avg_ms = 0 ∧
        (calculate_metrics sys scen 0 s e [] 0 now).latency_min_ms = 0 ∧
        (calculate_metrics sys scen 0 s e [] 0 now).latency_max_ms = 0 ∧
        (calculate_metrics sys scen 0 s e [] 0 now).throughput_per_second = 0 ∧
        (calculate_metrics sys scen 0 s e [] 0 now).errors = 0) ∧
    (∀ t : ℚ, benchmark_runqy_direct 0 [] t = none) := by
  constructor
  · intro sys scen s e now
    refine ⟨?_, ?_, ?_, ?_, ?_, ?_, ?_, ?_⟩ <;>
      simp [calculate_metrics, calculate_percentile, pyRound_zero, List.min?,
        List.max?]
  · intro t
    have h0 : pyTrunc ((0 : ℚ) * (50 / 100)) = 0 := by
      norm_num [pyTrunc]
    simp [benchmark_runqy_direct, collectOutcomes, h0, pyGet]

/-- C6 counterexample: a `benchmark_temporal` run of one job whose submission
fails, with wall-clock duration 2s, reports throughput 0 even though
`job_count / duration = 1 / 2` and the duration is positive — refuting "for
every run, the reported throughput equals job_count divided by the wall-clock
duration ... and is 0 whenever that duration is ≤ 0". -/
theorem throughput_formula_cex :
    (run_benchmark (fun _ => WorkflowAttempt.raised 1 "boom") 1
        2).throughput_per_second = 0 ∧
    ((1 : ℚ) / 2 ≠ 0 ∧ (2 : ℚ) > 0) := by
  refine ⟨?_, by norm_num, by norm_num⟩
  norm_num [run_benchmark, submit_workflow, temporalCollect, List.range_succ]

/-- C6 amended: runs aggregated by `calculate_metrics` report throughput
`jobs_count / (end_time - start_time)` (rounded to 2 decimal places), 0
whenever the duration is ≤ 0, and the value is independent of the individual
latencies, the error count and the clock; `benchmark_temporal`, by contrast,
reports `job_count / total_time` only when at least one submission succeeded
and reports 0 whenever the collected latency list is empty, with no guard for
a non-positive duration. -/
theorem throughput_formula :
    (∀ (sys scen : String) (N : ℕ) (s e : ℚ) (L : List ℚ) (errs : ℕ) (now : ℚ),
        (calculate_metrics sys scen N s e L errs now).throughput_per_second =
          if e - s > 0 then pyRound ((N : ℚ) / (e - s)) 2 else 0) ∧
    (∀ (sys scen : String) (N : ℕ) (s e : ℚ) (L L' : List ℚ)
        (errs errs' : ℕ) (now now' : ℚ),
        (calculate_metrics sys scen N s e L errs now).throughput_per_second =
          (calculate_metrics sys scen N s e L' errs' now').throughput_per_second) ∧
    (∀ (env : ℕ → WorkflowAttempt) (N : ℕ) (t : ℚ),
        (run_benchmark env N t).throughput_per_second =
          if (temporalCollect ((List.range N).map
              (fun i => submit_workflow (env i)))).1 = []
          then 0 else (N : ℚ) / t) := by
  refine ⟨?_, ?_, ?_⟩
  · intro sys scen N s e L errs now
    show pyRound (if e - s > 0 then (N : ℚ) / (e - s) else 0) 2 = _
    split_ifs with h
    · rfl
    · exact pyRound_zero 2
  · intro sys scen N s e L L' errs errs' now now'
    rfl
  · intro env N t
    simp only [run_benchmark]
    split <;> rfl

lemma jobsInBatch_eq (jobs bs i : ℕ) :
    jobsInBatch jobs bs i = min bs (jobs - i * bs) := by
  unfold jobsInBatch
  omega

/-- Coverage invariant: if `lats` holds one latency for each batch from batch
`i` on (`⌈(jobs - i*bs) / bs⌉` of them), the attribution from batch `i`
produces one value per remaining job. -/
lemma attr_length (jobs bs : ℕ) (hbs : 1 ≤ bs) :
    ∀ (lats : List ℚ) (i : ℕ),
      lats.length = (jobs - i * bs + bs - 1) / bs →
      (attributeBatches jobs bs lats i).length = jobs - i * bs := by
  intro lats
  induction lats with
  | nil =>
      intro i hcov
      simp only [List.length_nil] at hcov
      simp only [attributeBatches, List.length_nil]
      rcases Nat.lt_or_ge (jobs - i * bs + bs - 1) bs with hlt | hge
      · omega
      · have h1 : 1 ≤ (jobs - i * bs + bs - 1) / bs :=
          (Nat.one_le_div_iff (by omega)).mpr hge
        omega
  | cons l rest ih =>
      intro i hcov
      simp only [List.length_cons] at hcov
      simp only [attributeBatches, List.length_append, List.length_replicate,
        jobsInBatch_eq]
      have hm1 : 1 ≤ jobs - i * bs := by
        have h1 : 1 ≤ (jobs - i * bs + bs - 1) / bs := by omega
        have h2 := (Nat.one_le_div_iff (show 0 < bs by omega)).mp h1
        omega
      have hnext : (i + 1) * bs = i * bs + bs := by ring
      by_cases hbig : bs ≤ jobs - i * bs
      · have hrest : rest.length = (jobs - (i + 1) * bs + bs - 1) / bs := by
          rw [hnext]
          have e1 : jobs - (i * bs + bs) + bs - 1 = jobs - i * bs - 1 := by omega
          have e2 : jobs - i * bs + bs - 1 = (jobs - i * bs - 1) + bs := by omega
          rw [e2, Nat.add_div_right _ (show 0 < bs by omega)] at hcov
          rw [e1]
          omega
        have hrec := ih (i + 1) hrest
        rw [hrec, hnext]
        omega
      · -- last, partial batch: `rest` must be empty
        have hone : (jobs - i * bs + bs - 1) / bs = 1 := by
          have hlt2 : jobs - i * bs + bs - 1 < 2 * bs := by omega
          have hge2 : bs ≤ jobs - i * bs + bs - 1 := by omega
          have hlo : 1 ≤ (jobs - i * bs + bs - 1) / bs :=
            (Nat.one_le_div_iff (by omega)).mpr hge2
          have hhi : (jobs - i * bs + bs - 1) / bs < 2 :=
            Nat.div_lt_of_lt_mul (by omega)
          omega
        have hrest0 : rest.length = 0 := by omega
        have hrest : rest = [] := List.length_eq_zero.mp hrest0
        subst hrest
        simp only [attributeBatches, List.length_nil]
        omega

/-- Pointwise description of the attributed list: job `j` (counted from batch
`i`) receives the latency of batch `i + j / bs` divided by that batch's job
count. -/
lemma attr_get (jobs bs : ℕ) (hbs : 1 ≤ bs) :
    ∀ (lats : List ℚ) (i j : ℕ),
      lats.length = (jobs - i * bs + bs - 1) / bs →
      i * bs + j < jobs →
      (attributeBatches jobs bs lats i).get? j =
        some (lats.getD (j / bs) 0 /
          ((jobsInBatch jobs bs (i + j / bs) : ℕ) : ℚ)) := by
  intro lats
  induction lats with
  | nil =>
      intro i j hcov hj
      exfalso
      simp only [List.length_nil] at hcov
      rcases Nat.lt_or_ge (jobs - i * bs + bs - 1) bs with hlt | hge
      · omega
      · have h1 : 1 ≤ (jobs - i * bs + bs - 1) / bs :=
          (Nat.one_le_div_iff (by omega)).mpr hge
        omega
  | cons l rest ih =>
      intro i j hcov hj
      simp only [List.length_cons] at hcov
      have hm1 : 1 ≤ jobs - i * bs := by omega
      have hk : jobsInBatch jobs bs i = min bs (jobs - i * bs) :=
        jobsInBatch_eq jobs bs i
      have hnext : (i + 1) * bs = i * bs + bs := by ring
      simp only [attributeBatches]
      by_cases hjk : j < jobsInBatch jobs bs i
      · -- inside the replicate segment of batch i
        have hjbs : j < bs := by omega
        have hdiv : j / bs = 0 := Nat.div_eq_of_lt hjbs
        rw [List.get?_append
          (by simpa [List.length_replicate] using hjk)]
        rw [List.get?_eq_getElem?, List.getElem?_replicate, if_pos hjk]
        simp [hdiv]
      · -- beyond batch i: batch i is full (k = bs) and we recurse
        have hkbs : jobsInBatch jobs bs i = bs := by
          -- were the batch partial, jobs - i*bs ≤ bs would force j < k
          omega
        have hjge : bs ≤ j := by omega
        rw [List.get?_append_right
          (by simpa [List.length_replicate] using not_lt.mp hjk)]
        have hrest : rest.length = (jobs - (i + 1) * bs + bs - 1) / bs := by
          rw [hnext]
          have e2 : jobs - i * bs + bs - 1 =
              (jobs - (i * bs + bs) + bs - 1) + bs := by omega
          rw [e2, Nat.add_div_right _ (show 0 < bs by omega)] at hcov
          omega
        have hj2 : (i + 1) * bs + (j - bs) < jobs := by
          rw [hnext]; omega
        have hrec := ih (i + 1) (j - bs) hrest hj2
        simp only [List.length_replicate, hkbs]
        have hjdiv : j / bs = (j - bs) / bs + 1 := by
          have h3 : j = (j - bs) + bs := by omega
          conv_lhs => rw [h3]
          rw [Nat.add_div_right _ (show 0 < bs by omega)]
        rw [hrec, hjdiv]
        simp only [List.getD_cons_succ]
        have harg : i + 1 + (j - bs) / bs = i + ((j - bs) / bs + 1) := by omega
        rw [harg]

lemma pyTrunc_mul_percent (n pn : ℕ) :
    pyTrunc ((n : ℚ) * ((pn : ℚ) / 100)) = ((n * pn / 100 : ℕ) : ℤ) := by
  have h := pyTrunc_nat_mul_div n pn
  have e : (n : ℚ) * (pn : ℚ) / 100 = (n : ℚ) * ((pn : ℚ) / 100) := by ring
  rw [e] at h
  exact h

lemma pyGet_trunc_percent (L : List ℚ) (pn : ℕ) (hL : 1 ≤ L.length)
    (hpn : pn < 100) :
    pyGet L (pyTrunc ((L.length : ℚ) * ((pn : ℚ) / 100))) =
      some (L.getD (L.length * pn / 100) 0) := by
  rw [pyTrunc_mul_percent]
  apply pyGet_natCast
  have h1 : L.length * pn < L.length * 100 :=
    Nat.mul_lt_mul_of_pos_left hpn (by omega)
  exact Nat.div_lt_of_lt_mul (by omega)

lemma pyGet_trunc_percent_min (L : List ℚ) (pn : ℕ) (hL : 1 ≤ L.length) :
    pyGet L (min (pyTrunc ((L.length : ℚ) * ((pn : ℚ) / 100)))
        ((L.length : ℤ) - 1)) =
      some (L.getD (min (L.length * pn / 100) (L.length - 1)) 0) := by
  rw [pyTrunc_mul_percent]
  have hco : ((L.length : ℤ) - 1) = ((L.length - 1 : ℕ) : ℤ) := by omega
  rw [hco, ← Nat.cast_min]
  exact pyGet_natCast _ _ (by omega)

/-- C7: in batch mode, with `batch_latencies` holding one elapsed time per
batch (`⌈jobs_count / batch_size⌉` of them), every job receives as attributed
latency the elapsed time of its batch divided evenly by that batch's job
count — job `j` lies in batch `j / batch_size`, all members of one batch
receive the same value — and the aggregate result's percentiles are the
nearest-rank indices into the ascending sort of exactly these attributed
values. -/
theorem batch_attribution :
    ∀ (jobs_count batch_size : ℕ) (lats : List ℚ) (t : ℚ) (errs : ℕ),
      1 ≤ batch_size →
      lats.length = (jobs_count + batch_size - 1) / batch_size →
      (attributeBatches jobs_count batch_size lats 0).length = jobs_count ∧
      (∀ j < jobs_count,
          (attributeBatches jobs_count batch_size lats 0).get? j =
            some (lats.getD (j / batch_size) 0 /
              ((jobsInBatch jobs_count batch_size (j / batch_size) : ℕ) : ℚ))) ∧
      (1 ≤ jobs_count →
          benchmark_pipelined jobs_count batch_size lats t errs =
            some { system := "runqy", job_count := jobs_count,
                   total_time_seconds := t,
                   throughput_per_second := (jobs_count : ℚ) / t,
                   latency_p50_ms :=
                     ((attributeBatches jobs_count batch_size lats
                         0).insertionSort (· ≤ ·)).getD
                       (jobs_count * 50 / 100) 0,
                   latency_p95_ms :=
                     ((attributeBatches jobs_count batch_size lats
                         0).insertionSort (· ≤ ·)).getD
                       (jobs_count * 95 / 100) 0,
                   latency_p99_ms :=
                     ((attributeBatches jobs_count batch_size lats
                         0).insertionSort (· ≤ ·)).getD
                       (min (jobs_count * 99 / 100) (jobs_count - 1)) 0,
                   errors := errs, optimization := "pipelined" }) := by
  intro jobs bs lats t errs hbs hcov
  have hcov0 : lats.length = (jobs - 0 * bs + bs - 1) / bs := by
    simpa using hcov
  have hlen0 : (attributeBatches jobs bs lats 0).length = jobs := by
    have h := attr_length jobs bs hbs lats 0 hcov0
    simpa using h
  refine ⟨hlen0, ?_, ?_⟩
  · intro j hj
    have h := attr_get jobs bs hbs lats 0 j hcov0 (by simpa using hj)
    simpa using h
  · intro hjobs1
    have hS1 : 1 ≤ ((attributeBatches jobs bs lats 0).insertionSort
        (· ≤ ·)).length := by
      rw [List.length_insertionSort, hlen0]
      omega
    have h50 := pyGet_trunc_percent
      ((attributeBatches jobs bs lats 0).insertionSort (· ≤ ·)) 50 hS1
      (by norm_num)
    have h95 := pyGet_trunc_percent
      ((attributeBatches jobs bs lats 0).insertionSort (· ≤ ·)) 95 hS1
      (by norm_num)
    have h99 := pyGet_trunc_percent_min
      ((attributeBatches jobs bs lats 0).insertionSort (· ≤ ·)) 99 hS1
    simp only [Nat.cast_ofNat] at h50 h95 h99
    simp only [benchmark_pipelined]
    rw [h50, h95, h99]
    rw [List.length_insertionSort, hlen0]

/-- Witness for `batch_attribution`: 5 jobs in batches of 2 (sizes 2, 2, 1)
with batch latencies 4, 6 and 10. -/
theorem batch_attribution_witness :
    1 ≤ 2 ∧ ([4, 6, 10] : List ℚ).length = (5 + 2 - 1) / 2 ∧
    (attributeBatches 5 2 [4, 6, 10] 0).length = 5 ∧
    (attributeBatches 5 2 [4, 6, 10] 0).get? 4 =
      some (([4, 6, 10] : List ℚ).getD (4 / 2) 0 /
        ((jobsInBatch 5 2 (4 / 2) : ℕ) : ℚ)) ∧
    benchmark_pipelined 5 2 [4, 6, 10] 7 0 =
      some { system := "runqy", job_count := 5, total_time_seconds := 7,
             throughput_per_second := (5 : ℚ) / 7,
             latency_p50_ms :=
               ((attributeBatches 5 2 ([4, 6, 10] : List ℚ)
                   0).insertionSort (· ≤ ·)).getD (5 * 50 / 100) 0,
             latency_p95_ms :=
               ((attributeBatches 5 2 ([4, 6, 10] : List ℚ)
                   0).insertionSort (· ≤ ·)).getD (5 * 95 / 100) 0,
             latency_p99_ms :=
               ((attributeBatches 5 2 ([4, 6, 10] : List ℚ)
                   0).insertionSort (· ≤ ·)).getD
                 (min (5 * 99 / 100) (5 - 1)) 0,
             errors := 0, optimization := "pipelined" } :=
  ⟨by norm_num, by norm_num,
   (batch_attribution 5 2 [4, 6, 10] 7 0 (by norm_num) (by norm_num)).1,
   (batch_attribution 5 2 [4, 6, 10] 7 0 (by norm_num)
     (by norm_num)).2.1 4 (by norm_num),
   (batch_attribution 5 2 [4, 6, 10] 7 0 (by norm_num)
     (by norm_num)).2.2 (by norm_num)⟩

/-- C8 counterexample: `calculate_metrics` stamps each record with the
current wall clock (`datetime.utcnow()`), so two invocations on equal inputs
at different instants produce records that compare unequal — refuting "two
invocations on equal inputs produce equal RunResult records". -/
theorem aggregation_deterministic_cex :
    calculate_metrics "runqy" "simple" 1 0 1 [1] 0 0 ≠
      calculate_metrics "runqy" "simple" 1 0 1 [1] 0 1 := by
  intro h
  have ht := congrArg BenchmarkResult.timestamp h
  simp only [calculate_metrics] at ht
  norm_num at ht

/-- C8 amended: every field of the result except the wall-clock `timestamp`
is a pure function of the aggregation inputs; with the timestamp scrubbed,
two invocations on equal inputs — at arbitrary clock instants — yield
identical records. -/
theorem aggregation_deterministic :
    ∀ (sys scen : String) (N : ℕ) (s e : ℚ) (L : List ℚ) (errs : ℕ)
      (now now' : ℚ),
      eraseTimestamp (calculate_metrics sys scen N s e L errs now) =
        eraseTimestamp (calculate_metrics sys scen N s e L errs now') := by
  intro sys scen N s e L errs now now'
  rfl

/-- C10: the percentile and metrics computations leave the caller's latency
list untouched — run on a mutable-list state, both return exactly the
original list as the final state, and the value returned agrees with the pure
function of the initial list. -/
theorem aggregation_frame :
    (∀ (L : List ℚ) (p : ℚ),
        (calculate_percentileSt p).run L = (calculate_percentile L p, L)) ∧
    (∀ (sys scen : String) (N : ℕ) (s e : ℚ) (errs : ℕ) (now : ℚ)
        (L : List ℚ),
        (calculate_metricsSt sys scen N s e errs now).run L =
          (calculate_metrics sys scen N s e L errs now, L)) := by
  constructor
  · intro L p
    by_cases h : L = [] <;>
      simp [calculate_percentileSt, calculate_percentile, h, StateT.run,
        StateT.bind, StateT.get, StateT.pure, bind, pure, get, getThe,
        MonadStateOf.get, Id]
  · intro sys scen N s e errs now L
    simp [calculate_metricsSt, calculate_metrics, StateT.run, StateT.bind,
      StateT.get, StateT.pure, bind, pure, get, getThe, MonadStateOf.get, Id]

end RunqyBench
